import Mathlib

/-!
Verification of `ifermi/interpolator.py` (`Interpolater.interpolate_bands`).

The module is an orchestration layer around external numerical libraries
(BoltzTraP2 `fite.fitde3D` / `fite.getBTPbands` / `sphere.get_equivalences`,
spglib `get_ir_reciprocal_mesh`, pymatgen `BandStructure`).  The embedding
below translates the module's own logic faithfully and treats the external
collaborators as opaque data or opaque function parameters:

* the input `BandStructure` is a record of the fields the code reads
  (per-spin band arrays, Fermi energy, `is_metal()`, VBM/CBM energies and
  the per-spin maximal VBM band index);
* `sphere.get_equivalences` output, the spglib grid, and the BoltzTraP2
  fit/evaluation routines are fields of an `Externals` record
  (`fitde3D` fits each band row independently; `getBTPbands` evaluates each
  selected coefficient row to one dense row of energies);
* machine floats are idealised as `Rat`; `warnings.warn` is modelled as a
  boolean flag on the result; a Python runtime exception (e.g. `np.max` of
  an empty selection, `min([])`) is modelled as `none`.
-/

inductive Spin
  | up
  | down
deriving DecidableEq, Repr

abbrev KPt := Rat × Rat × Rat

/-- The fields of the pymatgen `BandStructure` read by `interpolate_bands`:
`bands` (per spin, `[band][kpoint]` energies in eV), `efermi`, `is_metal()`,
`get_vbm()["energy"]`, `get_cbm()["energy"]`, and
`max(get_vbm()["band_index"][spin])` per spin. -/
structure BandStructureIn where
  bands : List (Spin × List (List Rat))
  efermi : Rat
  isMetal : Bool
  vbmEnergy : Rat
  cbmEnergy : Rat
  vbmBandIndex : Spin → Nat

/-- The external collaborators, opaque to this module: the equivalence
classes returned by `sphere.get_equivalences` (a list of classes, each a
list of integer reciprocal-lattice vectors; `np.vstack` concatenates them),
the per-band coefficient fit of `fite.fitde3D`, the per-coefficient-row
dense evaluation of `fite.getBTPbands`, and the integer grid returned by
`spglib.get_ir_reciprocal_mesh`. -/
structure Externals where
  equivalences : List (List (Int × Int × Int))
  fitBand : List Rat → List Rat
  evalBand : List Rat → List Rat
  grid : List (Int × Int × Int)

/-- The observable outcome of `interpolate_bands`: the returned
`BandStructure` (k-points, per-spin energies, Fermi energy), whether the
Fermi-recentering warning was emitted, and the returned `kpoint_dim`. -/
structure InterpResult where
  kpoints : List KPt
  energies : List (Spin × List (List Rat))
  efermi : Rat
  warned : Bool
  meshDim : Int × Int × Int
deriving DecidableEq

/-- BoltzTraP2 `units.eV` (the eV in the library's atomic units): a fixed
nonzero rational constant; its exact value is immaterial to the claims. -/
def unitseV : Rat := 367493 / 10000000

/-- Python truthiness of the optional float `energy_cutoff`
(`None` and `0.0` are falsy). -/
def truthy : Option Rat → Bool
  | none => false
  | some c => decide (c ≠ 0)

/-- Left fold of `max`, as used for `np.max` over a nonempty list. -/
def foldMax [LinearOrder α] (a : α) (l : List α) : α := l.foldl max a

/-- Left fold of `min`, as used for `np.min` over a nonempty list. -/
def foldMin [LinearOrder α] (a : α) (l : List α) : α := l.foldl min a

/-- `np.max` / built-in `max` over a list: `none` models the exception on
an empty reduction. -/
def listMax? [LinearOrder α] : List α → Option α
  | [] => none
  | a :: l => some (foldMax a l)

/-- `np.min` / built-in `min` over a list: `none` models the exception on
an empty reduction. -/
def listMin? [LinearOrder α] : List α → Option α
  | [] => none
  | a :: l => some (foldMin a l)

/-- A Python list comprehension that fails as soon as one element fails. -/
def optMap (f : α → Option β) : List α → Option (List β)
  | [] => some []
  | a :: l =>
    match f a, optMap f l with
    | some b, some bs => some (b :: bs)
    | _, _ => none

/-- Numpy boolean-mask row selection, `arr[ibands]`. -/
def maskSelect (mask : List Bool) (xs : List α) : List α :=
  (mask.zip xs).filterMap (fun p => if p.1 then some p.2 else none)

/-- Line 125-129: `ibands = np.any((bands > min_e) & (bands < max_e), axis=1)`,
the per-band selection mask (strict inequalities). -/
def bandMask (lo hi : Rat) (rows : List (List Rat)) : List Bool :=
  rows.map (fun row => row.any (fun e => decide (lo < e) && decide (e < hi)))

/-- All band energies of the input band structure, across spins. -/
def allEnergies (bs : BandStructureIn) : List Rat :=
  (bs.bands.map (fun p => p.2.flatten)).flatten

/-- Line 115-117: `min([bands[spin].min() for spin in spins])`. -/
def globalMinE (bs : BandStructureIn) : Option Rat :=
  (optMap (fun p => listMin? p.2.flatten) bs.bands).bind listMin?

/-- Line 118-120: `max([bands[spin].max() for spin in spins])`. -/
def globalMaxE (bs : BandStructureIn) : Option Rat :=
  (optMap (fun p => listMax? p.2.flatten) bs.bands).bind listMax?

/-- Lines 105-120: the `(min_e, max_e)` selection window.  Note the code
tests `if energy_cutoff and is_metal` / `elif energy_cutoff`, i.e. Python
truthiness of the cutoff. -/
def selectionWindow (bs : BandStructureIn) (cutoff : Option Rat) : Option (Rat × Rat) :=
  if truthy cutoff && bs.isMetal then
    some (bs.efermi - cutoff.getD 0, bs.efermi + cutoff.getD 0)
  else if truthy cutoff then
    some (bs.vbmEnergy - cutoff.getD 0, bs.cbmEnergy + cutoff.getD 0)
  else
    match globalMinE bs, globalMaxE bs with
    | some lo, some hi => some (lo, hi)
    | _, _ => none

/-- Lines 95-100: `coefficients[spin] = fite.fitde3D(data, equivalences)`
where `data` holds `bands[spin] * units.eV`; the external fit produces one
coefficient row per band. -/
def spinCoefficients (ext : Externals) (rows : List (List Rat)) : List (List Rat) :=
  rows.map (fun row => ext.fitBand (row.map (fun e => e * unitseV)))

/-- Lines 131-139: `fite.getBTPbands(equivalences, coefficients[spin][ibands], ...)`
followed by `energies[spin] /= units.eV`: evaluate only the mask-selected
coefficient rows and convert back to eV. -/
def spinRawEnergies (ext : Externals) (lo hi : Rat) (rows : List (List Rat)) : List (List Rat) :=
  (maskSelect (bandMask lo hi rows) (spinCoefficients ext rows)).map
    (fun c => (ext.evalBand c).map (fun e => e / unitseV))

/-- The `coefficients` dictionary built by the first per-spin loop. -/
def coefficientsDict (ext : Externals) (bs : BandStructureIn) :
    List (Spin × List (List Rat)) :=
  bs.bands.map (fun p => (p.1, spinCoefficients ext p.2))

/-- The `energies` dictionary built by the second per-spin loop (before the
final column reordering). -/
def rawEnergiesDict (ext : Externals) (bs : BandStructureIn) (lo hi : Rat) :
    List (Spin × List (List Rat)) :=
  bs.bands.map (fun p => (p.1, spinRawEnergies ext lo hi p.2))

/-- Lines 141-147: `new_vb_idx[spin] = sum(ibands[: vb_idx + 1]) - 1` with
`vb_idx = max(get_vbm()["band_index"][spin])`; may be `-1`. -/
def newVbIdx (bs : BandStructureIn) (lo hi : Rat) (s : Spin) (rows : List (List Rat)) : Int :=
  (((bandMask lo hi rows).take (bs.vbmBandIndex s + 1)).count true : Int) - 1

/-- Line 158: `e_vbm = max([np.max(energies[s][: new_vb_idx[s] + 1]) for s in spins])`
(Python slicing with an `Int` bound clamps at `0` via `toNat`). -/
def eVbm (ext : Externals) (bs : BandStructureIn) (lo hi : Rat) : Option Rat :=
  (optMap (fun p =>
      listMax? (((spinRawEnergies ext lo hi p.2).take
        (newVbIdx bs lo hi p.1 p.2 + 1).toNat).flatten))
    bs.bands).bind listMax?

/-- Line 159: `e_cbm = min([np.min(energies[s][new_vb_idx[s] + 1 :]) for s in spins])`. -/
def eCbm (ext : Externals) (bs : BandStructureIn) (lo hi : Rat) : Option Rat :=
  (optMap (fun p =>
      listMin? (((spinRawEnergies ext lo hi p.2).drop
        (newVbIdx bs lo hi p.1 p.2 + 1).toNat).flatten))
    bs.bands).bind listMin?

/-- Lines 150-160: the output Fermi energy and whether the recentering
warning is emitted (metal: reuse `efermi`, no warning; non-metal: warn and
take the gap midpoint). -/
def fermiResult (ext : Externals) (bs : BandStructureIn) (lo hi : Rat) : Option (Rat × Bool) :=
  if bs.isMetal then some (bs.efermi, false)
  else
    match eVbm ext bs lo hi, eCbm ext bs lo hi with
    | some a, some b => some ((a + b) / 2, true)
    | _, _ => none

/-- Lines 93 and 188: `2 * np.max(np.abs(np.vstack(equivalences)), axis=0) + 1`,
the interpolation mesh dimensions (also returned as `kpoint_dim`);
`np.vstack` of an empty list raises, modelled by `none`. -/
def meshDims (eqs : List (List (Int × Int × Int))) : Option (Int × Int × Int) :=
  match eqs.flatten with
  | [] => none
  | v :: rest =>
    some (2 * foldMax |v.1| (rest.map (fun w => |w.1|)) + 1,
          2 * foldMax |v.2.1| (rest.map (fun w => |w.2.1|)) + 1,
          2 * foldMax |v.2.2| (rest.map (fun w => |w.2.2|)) + 1)

/-- Line 166: `full_kpoints = grid / interpolation_mesh`. -/
def fullKpoints (grid : List (Int × Int × Int)) (mesh : Int × Int × Int) : List KPt :=
  grid.map (fun g =>
    ((g.1 : Rat) / (mesh.1 : Rat), (g.2.1 : Rat) / (mesh.2.1 : Rat),
      (g.2.2 : Rat) / (mesh.2.2 : Rat)))

/-- Plain lexicographic order on fractional k-points, the key order of the
second `np.lexsort` (line 182-184). -/
def lexLe (a b : KPt) : Prop :=
  a.1 < b.1 ∨ (a.1 = b.1 ∧ (a.2.1 < b.2.1 ∨ (a.2.1 = b.2.1 ∧ a.2.2 ≤ b.2.2)))

instance : DecidableRel lexLe := fun a b =>
  inferInstanceAs (Decidable
    (a.1 < b.1 ∨ (a.1 = b.1 ∧ (a.2.1 < b.2.1 ∨ (a.2.1 = b.2.1 ∧ a.2.2 ≤ b.2.2)))))

/-- Numpy's `x < 0` sort key followed by `x` (with `False < True`): compare
the sign flag first, then the value. -/
def sgnFlag (x : Rat) : Nat := if x < 0 then 1 else 0

/-- Strict comparison by `(x < 0, x)` key. -/
def sLt (x y : Rat) : Prop := sgnFlag x < sgnFlag y ∨ (sgnFlag x = sgnFlag y ∧ x < y)

instance : DecidableRel sLt := fun x y =>
  inferInstanceAs (Decidable (sgnFlag x < sgnFlag y ∨ (sgnFlag x = sgnFlag y ∧ x < y)))

/-- The sign-first ordering of the first `np.lexsort`
(keys `x<0, x, y<0, y, z<0, z`; line 169-178). -/
def signLe (a b : KPt) : Prop :=
  sLt a.1 b.1 ∨ (a.1 = b.1 ∧
    (sLt a.2.1 b.2.1 ∨ (a.2.1 = b.2.1 ∧ (sLt a.2.2 b.2.2 ∨ a.2.2 = b.2.2))))

instance : DecidableRel signLe := fun a b =>
  inferInstanceAs (Decidable (sLt a.1 b.1 ∨ (a.1 = b.1 ∧
    (sLt a.2.1 b.2.1 ∨ (a.2.1 = b.2.1 ∧ (sLt a.2.2 b.2.2 ∨ a.2.2 = b.2.2))))))

/-- Lift of a relation to index-value pairs, comparing the values. -/
def pairRel (r : α → α → Prop) (a b : Nat × α) : Prop := r a.2 b.2

instance (r : α → α → Prop) [DecidableRel r] : DecidableRel (pairRel r) := fun a b =>
  inferInstanceAs (Decidable (r a.2 b.2))

/-- Indexing of a list starting at `n` (like `enumerate`). -/
def enumFromL (n : Nat) : List α → List (Nat × α)
  | [] => []
  | a :: l => (n, a) :: enumFromL (n + 1) l

/-- `np.lexsort` / `np.argsort(kind="stable")`: the permutation (as a list
of indices) obtained by stably sorting index-value pairs by value. -/
def argsort (r : α → α → Prop) [DecidableRel r] (l : List α) : List Nat :=
  (List.insertionSort (pairRel r) (enumFromL 0 l)).map Prod.fst

/-- Fancy indexing `arr[perm]`. -/
def applyPerm [Inhabited α] (p : List Nat) (l : List α) : List α :=
  p.map (fun i => l.getD i default)

/-- Lines 162-195: sort the spglib k-points sign-first (k-points only), then
re-sort k-points and each spin's energy columns by plain lexicographic
order, and assemble the returned band structure and `kpoint_dim`. -/
def buildResult (ext : Externals) (bs : BandStructureIn) (lo hi : Rat)
    (mesh : Int × Int × Int) (efw : Rat × Bool) : InterpResult :=
  let kpts0 := fullKpoints ext.grid mesh
  let s1 := argsort signLe kpts0
  let kpts1 := applyPerm s1 kpts0
  let s2 := argsort lexLe kpts1
  { kpoints := applyPerm s2 kpts1
    energies := (rawEnergiesDict ext bs lo hi).map
      (fun p => (p.1, p.2.map (fun row => applyPerm s2 row)))
    efermi := efw.1
    warned := efw.2
    meshDim := mesh }

/-- `Interpolater.interpolate_bands` (lines 57-197): `none` models an
uncaught Python exception. -/
def interpolate_bands (ext : Externals) (bs : BandStructureIn)
    (cutoff : Option Rat) : Option InterpResult :=
  match meshDims ext.equivalences, selectionWindow bs cutoff with
  | some mesh, some (lo, hi) =>
    match fermiResult ext bs lo hi with
    | some efw => some (buildResult ext bs lo hi mesh efw)
    | none => none
  | _, _ => none

/-- A trivial external environment: one equivalence class `{(1,0,0)}` (mesh
`(3,1,1)`), identity fit, evaluation returning the first coefficient (so a band
with first scaled energy `x * unitseV` evaluates to the single-k-point row
`[x]`), and the one-point grid `{(0,0,0)}`. -/
def extTriv : Externals := ⟨[[(1, 0, 0)]], id, fun c => [c.headD 0], [(0, 0, 0)]⟩

/-- An external environment whose evaluator returns a degenerate constant row
`[1]` (in eV) for every band. -/
def extDeg : Externals := ⟨[[(1, 0, 0)]], id, fun _ => [unitseV], [(0, 0, 0)]⟩

/-- An external environment with a three-point grid `{(1,0,0),(0,0,0),(-1,0,0)}`
and an evaluator returning the row `[1, 2, 3]` (in eV) for every band. -/
def extSort : Externals :=
  ⟨[[(1, 0, 0)]], id, fun _ => [unitseV, 2 * unitseV, 3 * unitseV],
    [(1, 0, 0), (0, 0, 0), (-1, 0, 0)]⟩

/-- An external environment whose only equivalence vector is `(3, -2, 1)`. -/
def ext731 : Externals := ⟨[[(3, -2, 1)]], id, fun c => [c.headD 0], [(0, 0, 0)]⟩

/-- Metallic input, one spin, one band with energies `{0, 1}`, Fermi level 5. -/
def bsMetalFlat : BandStructureIn := ⟨[(Spin.up, [[0, 1]])], 5, true, 0, 0, fun _ => 0⟩

/-- Metallic input, one spin, one band with energies `{0, 1, 2}`, Fermi level 7. -/
def bsMetalW : BandStructureIn := ⟨[(Spin.up, [[0, 1, 2]])], 7, true, 0, 0, fun _ => 0⟩

/-- Metallic input with two spin channels. -/
def bsTwoSpin : BandStructureIn :=
  ⟨[(Spin.up, [[0, 1, 2]]), (Spin.down, [[0, 1, 2]])], 7, true, 0, 0, fun _ => 0⟩

/-- Input with two flat bands at the global extremes 0 and 1. -/
def bsFlatBands : BandStructureIn := ⟨[(Spin.up, [[0], [1]])], 0, true, 0, 0, fun _ => 0⟩

/-- Input with bands `[0, 5]` and `[9, 9]` (global window `(0, 9)`). -/
def bsW3 : BandStructureIn := ⟨[(Spin.up, [[0, 5], [9, 9]])], 0, true, 0, 0, fun _ => 0⟩

/-- Non-metallic input with valence band `[0, 1]` (VBM band index 0) and
conduction band `[3, 4]`. -/
def bsGapDeg : BandStructureIn := ⟨[(Spin.up, [[0, 1], [3, 4]])], 0, false, 0, 0, fun _ => 0⟩

/-- Metallic input whose single band `[0, 1]` lies entirely outside the window
`(9, 11)` produced by `energy_cutoff = 1` around `efermi = 10`. -/
def bsNoBandsMetal : BandStructureIn :=
  ⟨[(Spin.up, [[0, 1]])], 10, true, 10, 10, fun _ => 0⟩

/-- The same input as `bsNoBandsMetal` but non-metallic, with VBM and CBM
energies 10 (window again `(9, 11)`). -/
def bsNoBandsSemi : BandStructureIn :=
  ⟨[(Spin.up, [[0, 1]])], 10, false, 10, 10, fun _ => 0⟩






theorem lexLe_total (a b : KPt) : lexLe a b ∨ lexLe b a := by
  rcases lt_trichotomy a.1 b.1 with h | h | h
  · exact Or.inl (Or.inl h)
  · rcases lt_trichotomy a.2.1 b.2.1 with h2 | h2 | h2
    · exact Or.inl (Or.inr ⟨h, Or.inl h2⟩)
    · rcases le_total a.2.2 b.2.2 with h3 | h3
      · exact Or.inl (Or.inr ⟨h, Or.inr ⟨h2, h3⟩⟩)
      · exact Or.inr (Or.inr ⟨h.symm, Or.inr ⟨h2.symm, h3⟩⟩)
    · exact Or.inr (Or.inr ⟨h.symm, Or.inl h2⟩)
  · exact Or.inr (Or.inl h)

theorem lexLe_trans (a b c : KPt) (hab : lexLe a b) (hbc : lexLe b c) : lexLe a c := by
  rcases hab with h1 | ⟨e1, h1⟩
  · rcases hbc with h2 | ⟨e2, h2⟩
    · exact Or.inl (h1.trans h2)
    · exact Or.inl (e2 ▸ h1)
  · rcases hbc with h2 | ⟨e2, h2⟩
    · exact Or.inl (e1 ▸ h2)
    · refine Or.inr ⟨e1.trans e2, ?_⟩
      rcases h1 with g1 | ⟨f1, g1⟩
      · rcases h2 with g2 | ⟨f2, g2⟩
        · exact Or.inl (g1.trans g2)
        · exact Or.inl (f2 ▸ g1)
      · rcases h2 with g2 | ⟨f2, g2⟩
        · exact Or.inl (f1 ▸ g2)
        · exact Or.inr ⟨f1.trans f2, g1.trans g2⟩

instance : IsTotal KPt lexLe := ⟨lexLe_total⟩

instance : IsTrans KPt lexLe := ⟨lexLe_trans⟩

instance (r : α → α → Prop) [IsTotal α r] : IsTotal (Nat × α) (pairRel r) :=
  ⟨fun a b => total_of r a.2 b.2⟩

instance (r : α → α → Prop) [IsTrans α r] : IsTrans (Nat × α) (pairRel r) :=
  ⟨fun _ _ _ h1 h2 => trans_of r h1 h2⟩

theorem le_foldMax [LinearOrder α] (a : α) (l : List α) : a ≤ foldMax a l := by
  induction l generalizing a with
  | nil => exact le_refl a
  | cons x t ih =>
    exact le_trans (le_max_left a x) (ih (max a x))

theorem le_foldMax_of_mem [LinearOrder α] {x : α} {l : List α} (a : α) (hx : x ∈ l) :
    x ≤ foldMax a l := by
  induction l generalizing a with
  | nil => cases hx
  | cons y t ih =>
    have hgoal : foldMax a (y :: t) = foldMax (max a y) t := rfl
    rcases List.mem_cons.mp hx with h | h
    · rw [hgoal, h]
      exact le_trans (le_max_right a y) (le_foldMax (max a y) t)
    · rw [hgoal]
      exact ih (max a y) h

theorem foldMax_mem [LinearOrder α] (a : α) (l : List α) :
    foldMax a l = a ∨ foldMax a l ∈ l := by
  induction l generalizing a with
  | nil => exact Or.inl rfl
  | cons x t ih =>
    rcases ih (max a x) with h | h
    · rcases max_choice a x with hm | hm
      · exact Or.inl (by rw [foldMax, List.foldl_cons, ← foldMax] at *; rw [h, hm])
      · refine Or.inr (List.mem_cons.mpr (Or.inl ?_))
        rw [foldMax, List.foldl_cons, ← foldMax, h, hm]
    · exact Or.inr (List.mem_cons.mpr (Or.inr h))

theorem foldMin_le [LinearOrder α] (a : α) (l : List α) : foldMin a l ≤ a := by
  induction l generalizing a with
  | nil => exact le_refl a
  | cons x t ih =>
    exact le_trans (ih (min a x)) (min_le_left a x)

theorem foldMin_le_of_mem [LinearOrder α] {x : α} {l : List α} (a : α) (hx : x ∈ l) :
    foldMin a l ≤ x := by
  induction l generalizing a with
  | nil => cases hx
  | cons y t ih =>
    have hgoal : foldMin a (y :: t) = foldMin (min a y) t := rfl
    rcases List.mem_cons.mp hx with h | h
    · rw [hgoal, h]
      exact le_trans (foldMin_le (min a y) t) (min_le_right a y)
    · rw [hgoal]
      exact ih (min a y) h

theorem foldMin_mem [LinearOrder α] (a : α) (l : List α) :
    foldMin a l = a ∨ foldMin a l ∈ l := by
  induction l generalizing a with
  | nil => exact Or.inl rfl
  | cons x t ih =>
    rcases ih (min a x) with h | h
    · rcases min_choice a x with hm | hm
      · exact Or.inl (by rw [foldMin, List.foldl_cons, ← foldMin] at *; rw [h, hm])
      · refine Or.inr (List.mem_cons.mpr (Or.inl ?_))
        rw [foldMin, List.foldl_cons, ← foldMin, h, hm]
    · exact Or.inr (List.mem_cons.mpr (Or.inr h))

theorem listMax?_mem [LinearOrder α] {l : List α} {m : α} (h : listMax? l = some m) :
    m ∈ l := by
  cases l with
  | nil => cases h
  | cons a t =>
    have hm : foldMax a t = m := by simpa [listMax?] using h
    rcases foldMax_mem a t with h2 | h2
    · exact List.mem_cons.mpr (Or.inl (hm ▸ h2.symm).symm)
    · exact List.mem_cons.mpr (Or.inr (hm ▸ h2))

theorem le_listMax? [LinearOrder α] {l : List α} {m : α} (h : listMax? l = some m) :
    ∀ x ∈ l, x ≤ m := by
  cases l with
  | nil => cases h
  | cons a t =>
    have hm : foldMax a t = m := by simpa [listMax?] using h
    intro x hx
    rcases List.mem_cons.mp hx with h2 | h2
    · exact hm ▸ h2 ▸ le_foldMax a t
    · exact hm ▸ le_foldMax_of_mem a h2

theorem listMin?_mem [LinearOrder α] {l : List α} {m : α} (h : listMin? l = some m) :
    m ∈ l := by
  cases l with
  | nil => cases h
  | cons a t =>
    have hm : foldMin a t = m := by simpa [listMin?] using h
    rcases foldMin_mem a t with h2 | h2
    · exact List.mem_cons.mpr (Or.inl (hm ▸ h2.symm).symm)
    · exact List.mem_cons.mpr (Or.inr (hm ▸ h2))

theorem listMin?_le [LinearOrder α] {l : List α} {m : α} (h : listMin? l = some m) :
    ∀ x ∈ l, m ≤ x := by
  cases l with
  | nil => cases h
  | cons a t =>
    have hm : foldMin a t = m := by simpa [listMin?] using h
    intro x hx
    rcases List.mem_cons.mp hx with h2 | h2
    · exact hm ▸ h2 ▸ foldMin_le a t
    · exact hm ▸ foldMin_le_of_mem a h2

theorem optMap_spec {f : α → Option β} :
    ∀ {l : List α} {ys : List β}, optMap f l = some ys →
      (∀ y ∈ ys, ∃ x ∈ l, f x = some y) ∧ (∀ x ∈ l, ∃ y ∈ ys, f x = some y) := by
  intro l
  induction l with
  | nil =>
    intro ys h
    have : ys = [] := by simpa [optMap] using h.symm
    subst this
    exact ⟨fun y hy => absurd hy (List.not_mem_nil y), fun x hx => absurd hx (List.not_mem_nil x)⟩
  | cons a t ih =>
    intro ys h
    unfold optMap at h
    cases ha : f a with
    | none => rw [ha] at h; cases h
    | some b =>
      rw [ha] at h
      cases ht : optMap f t with
      | none => rw [ht] at h; cases h
      | some bs =>
        rw [ht] at h
        have hys : ys = b :: bs := (Option.some_injective _ h).symm
        subst hys
        obtain ⟨h1, h2⟩ := ih ht
        constructor
        · intro y hy
          rcases List.mem_cons.mp hy with hb | hb
          · exact ⟨a, List.mem_cons_self a t, hb ▸ ha⟩
          · obtain ⟨x, hx, hfx⟩ := h1 y hb
            exact ⟨x, List.mem_cons.mpr (Or.inr hx), hfx⟩
        · intro x hx
          rcases List.mem_cons.mp hx with hb | hb
          · exact ⟨b, List.mem_cons_self b bs, hb ▸ ha⟩
          · obtain ⟨y, hy, hfy⟩ := h2 x hb
            exact ⟨y, List.mem_cons.mpr (Or.inr hy), hfy⟩

theorem mem_allEnergies {bs : BandStructureIn} {e : Rat} :
    e ∈ allEnergies bs ↔ ∃ p ∈ bs.bands, e ∈ p.2.flatten := by
  unfold allEnergies
  rw [List.mem_flatten]
  constructor
  · rintro ⟨l, hl, he⟩
    obtain ⟨p, hp, rfl⟩ := List.mem_map.mp hl
    exact ⟨p, hp, he⟩
  · rintro ⟨p, hp, he⟩
    exact ⟨p.2.flatten, List.mem_map.mpr ⟨p, hp, rfl⟩, he⟩

theorem globalMinE_spec {bs : BandStructureIn} {lo : Rat} (h : globalMinE bs = some lo) :
    lo ∈ allEnergies bs ∧ ∀ e ∈ allEnergies bs, lo ≤ e := by
  unfold globalMinE at h
  cases hm : optMap (fun p => listMin? p.2.flatten) bs.bands with
  | none => rw [hm] at h; cases h
  | some mins =>
    rw [hm] at h
    obtain ⟨h1, h2⟩ := optMap_spec hm
    constructor
    · obtain ⟨p, hp, hfp⟩ := h1 lo (listMin?_mem h)
      exact mem_allEnergies.mpr ⟨p, hp, listMin?_mem hfp⟩
    · intro e he
      obtain ⟨p, hp, hep⟩ := mem_allEnergies.mp he
      obtain ⟨m, hmm, hfm⟩ := h2 p hp
      exact le_trans (listMin?_le h m hmm) (listMin?_le hfm e hep)

theorem globalMaxE_spec {bs : BandStructureIn} {hi : Rat} (h : globalMaxE bs = some hi) :
    hi ∈ allEnergies bs ∧ ∀ e ∈ allEnergies bs, e ≤ hi := by
  unfold globalMaxE at h
  cases hm : optMap (fun p => listMax? p.2.flatten) bs.bands with
  | none => rw [hm] at h; cases h
  | some maxs =>
    rw [hm] at h
    obtain ⟨h1, h2⟩ := optMap_spec hm
    constructor
    · obtain ⟨p, hp, hfp⟩ := h1 hi (listMax?_mem h)
      exact mem_allEnergies.mpr ⟨p, hp, listMax?_mem hfp⟩
    · intro e he
      obtain ⟨p, hp, hep⟩ := mem_allEnergies.mp he
      obtain ⟨m, hmm, hfm⟩ := h2 p hp
      exact le_trans (le_listMax? hfm e hep) (le_listMax? h m hmm)

theorem snd_mem_enumFromL {p : Nat × α} :
    ∀ {l : List α} {n : Nat}, p ∈ enumFromL n l → p.2 ∈ l := by
  intro l
  induction l with
  | nil => intro n h; cases h
  | cons a t ih =>
    intro n h
    rcases List.mem_cons.mp h with h2 | h2
    · exact List.mem_cons.mpr (Or.inl (congrArg Prod.snd h2))
    · exact List.mem_cons.mpr (Or.inr (ih h2))

theorem enumFromL_bound_getD (d : α) :
    ∀ {l : List α} {n : Nat} {p : Nat × α}, p ∈ enumFromL n l →
      n ≤ p.1 ∧ l.getD (p.1 - n) d = p.2 := by
  intro l
  induction l with
  | nil => intro n p h; cases h
  | cons a t ih =>
    intro n p h
    rcases List.mem_cons.mp h with h2 | h2
    · rw [h2]
      exact ⟨le_refl n, by simp⟩
    · obtain ⟨hle, hget⟩ := ih h2
      refine ⟨le_trans (Nat.le_succ n) hle, ?_⟩
      have hsub : p.1 - n = (p.1 - (n + 1)) + 1 := by omega
      rw [hsub, List.getD_cons_succ]
      exact hget

theorem enumFromL_zero_getD (d : α) {l : List α} {p : Nat × α}
    (h : p ∈ enumFromL 0 l) : l.getD p.1 d = p.2 := by
  have h2 := (enumFromL_bound_getD d h).2
  rwa [Nat.sub_zero] at h2

theorem enumFromL_map_fst : ∀ (l : List α) (n : Nat),
    (enumFromL n l).map Prod.fst = List.range' n l.length := by
  intro l
  induction l with
  | nil => intro n; rfl
  | cons a t ih =>
    intro n
    rw [List.length_cons, List.range'_succ]
    exact congrArg (n :: ·) (ih (n + 1))

theorem pairwise_enumFromL {r : α → α → Prop} :
    ∀ {l : List α} (n : Nat), l.Pairwise r → (enumFromL n l).Pairwise (pairRel r) := by
  intro l
  induction l with
  | nil => intro n _; exact List.Pairwise.nil
  | cons a t ih =>
    intro n h
    rcases List.pairwise_cons.mp h with ⟨h1, h2⟩
    refine List.pairwise_cons.mpr ⟨?_, ih (n + 1) h2⟩
    intro p hp
    exact h1 p.2 (snd_mem_enumFromL hp)

theorem applyPerm_argsort [Inhabited α] (r : α → α → Prop) [DecidableRel r] (l : List α) :
    applyPerm (argsort r l) l =
      (List.insertionSort (pairRel r) (enumFromL 0 l)).map Prod.snd := by
  unfold applyPerm argsort
  rw [List.map_map]
  refine List.map_congr_left ?_
  intro p hp
  have hmem : p ∈ enumFromL 0 l :=
    (List.perm_insertionSort (pairRel r) (enumFromL 0 l)).subset hp
  exact enumFromL_zero_getD default hmem

theorem sorted_applyPerm_argsort [Inhabited α] (r : α → α → Prop) [DecidableRel r]
    [IsTotal α r] [IsTrans α r] (l : List α) :
    List.Sorted r (applyPerm (argsort r l) l) := by
  rw [applyPerm_argsort]
  have hs := List.sorted_insertionSort (pairRel r) (enumFromL 0 l)
  exact List.Pairwise.map Prod.snd (fun a b h => h) hs

theorem argsort_of_sorted (r : α → α → Prop) [DecidableRel r] {l : List α}
    (h : List.Sorted r l) : argsort r l = List.range l.length := by
  unfold argsort
  rw [List.Sorted.insertionSort_eq (pairwise_enumFromL 0 h), enumFromL_map_fst]
  exact (List.range_eq_range' _).symm

theorem fst_ge_enumFromL {p : Nat × α} {l : List α} {n : Nat}
    (h : p ∈ enumFromL n l) : n ≤ p.1 :=
  (enumFromL_bound_getD p.2 h).1

theorem take_count_enum : ∀ (m : List Bool) (n v : Nat),
    (m.take (v + 1)).count true =
      (enumFromL n m).countP (fun p => decide (p.1 ≤ n + v) && p.2) := by
  intro m
  induction m with
  | nil => intro n v; rfl
  | cons b t ih =>
    intro n v
    have htail : (t.take v).count true =
        (enumFromL (n + 1) t).countP (fun p => decide (p.1 ≤ n + v) && p.2) := by
      cases v with
      | zero =>
        rw [List.take_zero]
        have hzero : (enumFromL (n + 1) t).countP
            (fun p => decide (p.1 ≤ n + 0) && p.2) = 0 := by
          rw [List.countP_eq_zero]
          intro p hp
          have h1 : n + 1 ≤ p.1 := fst_ge_enumFromL hp
          have h2 : decide (p.1 ≤ n + 0) = false := by
            rw [decide_eq_false_iff_not]
            omega
          rw [h2, Bool.false_and]
          exact Bool.false_ne_true
        rw [hzero]
        rfl
      | succ k =>
        have harith : n + 1 + k = n + (k + 1) := by omega
        rw [← harith]
        exact ih (n + 1) k
    simp only [enumFromL, List.take_succ_cons, List.count_cons, List.countP_cons]
    rw [htail]
    have hb : (decide (n ≤ n + v) && b) = b := by
      rw [decide_eq_true (Nat.le_add_right n v), Bool.true_and]
    rw [hb]
    cases b <;> rfl

theorem interpolate_bands_some {ext : Externals} {bs : BandStructureIn}
    {cutoff : Option Rat} {r : InterpResult}
    (hr : interpolate_bands ext bs cutoff = some r) :
    ∃ mesh lo hi efw,
      meshDims ext.equivalences = some mesh ∧
      selectionWindow bs cutoff = some (lo, hi) ∧
      fermiResult ext bs lo hi = some efw ∧
      r = buildResult ext bs lo hi mesh efw := by
  cases hm : meshDims ext.equivalences with
  | none => rw [interpolate_bands, hm] at hr; cases hr
  | some mesh =>
    cases hw : selectionWindow bs cutoff with
    | none => rw [interpolate_bands, hm, hw] at hr; cases hr
    | some lohi =>
      obtain ⟨lo, hi⟩ := lohi
      cases hf : fermiResult ext bs lo hi with
      | none =>
        rw [interpolate_bands, hm, hw] at hr
        simp only [hf] at hr
        exact Option.noConfusion hr
      | some efw =>
        rw [interpolate_bands, hm, hw] at hr
        simp only [hf, Option.some.injEq] at hr
        exact ⟨mesh, lo, hi, efw, rfl, rfl, hf, hr.symm⟩

theorem buildResult_kpoints (ext : Externals) (bs : BandStructureIn) (lo hi : Rat)
    (mesh : Int × Int × Int) (efw : Rat × Bool) :
    (buildResult ext bs lo hi mesh efw).kpoints =
      applyPerm (argsort lexLe (applyPerm (argsort signLe (fullKpoints ext.grid mesh))
        (fullKpoints ext.grid mesh)))
        (applyPerm (argsort signLe (fullKpoints ext.grid mesh))
          (fullKpoints ext.grid mesh)) := rfl

theorem buildResult_energies (ext : Externals) (bs : BandStructureIn) (lo hi : Rat)
    (mesh : Int × Int × Int) (efw : Rat × Bool) :
    (buildResult ext bs lo hi mesh efw).energies =
      (rawEnergiesDict ext bs lo hi).map
        (fun p => (p.1, p.2.map (fun row => applyPerm
          (argsort lexLe (applyPerm (argsort signLe (fullKpoints ext.grid mesh))
            (fullKpoints ext.grid mesh))) row))) := rfl

theorem buildResult_efermi (ext : Externals) (bs : BandStructureIn) (lo hi : Rat)
    (mesh : Int × Int × Int) (efw : Rat × Bool) :
    (buildResult ext bs lo hi mesh efw).efermi = efw.1 := rfl

theorem buildResult_warned (ext : Externals) (bs : BandStructureIn) (lo hi : Rat)
    (mesh : Int × Int × Int) (efw : Rat × Bool) :
    (buildResult ext bs lo hi mesh efw).warned = efw.2 := rfl

theorem buildResult_meshDim (ext : Externals) (bs : BandStructureIn) (lo hi : Rat)
    (mesh : Int × Int × Int) (efw : Rat × Bool) :
    (buildResult ext bs lo hi mesh efw).meshDim = mesh := rfl

theorem ib_eq_some (ext : Externals) (bs : BandStructureIn) (cutoff : Option Rat)
    (mesh : Int × Int × Int) (lo hi : Rat) (efw : Rat × Bool)
    (hm : meshDims ext.equivalences = some mesh)
    (hw : selectionWindow bs cutoff = some (lo, hi))
    (hf : fermiResult ext bs lo hi = some efw) :
    interpolate_bands ext bs cutoff = some (buildResult ext bs lo hi mesh efw) := by
  simp only [interpolate_bands, hm, hw, hf]

theorem ib_eq_none (ext : Externals) (bs : BandStructureIn) (cutoff : Option Rat)
    (mesh : Int × Int × Int) (lo hi : Rat)
    (hm : meshDims ext.equivalences = some mesh)
    (hw : selectionWindow bs cutoff = some (lo, hi))
    (hf : fermiResult ext bs lo hi = none) :
    interpolate_bands ext bs cutoff = none := by
  simp only [interpolate_bands, hm, hw, hf]

/-- Claim C4 (amended): for every metallic band structure and every non-`None`,
nonzero `energy_cutoff`, the selection window is
`[efermi - energy_cutoff, efermi + energy_cutoff]`.  (At `energy_cutoff = 0.0`
the code's truthiness test ignores the cutoff instead.) -/
theorem metal_cutoff_window (bs : BandStructureIn) (c : Rat) (hc : c ≠ 0)
    (hmet : bs.isMetal = true) :
    selectionWindow bs (some c) = some (bs.efermi - c, bs.efermi + c) := by
  simp [selectionWindow, truthy, hc, hmet]

/-- Claim C4 witness: a metallic input with Fermi level 5 and cutoff 2 gets the
window `(3, 7)`. -/
theorem metal_cutoff_window_witness :
    (2 : Rat) ≠ 0 ∧ bsMetalFlat.isMetal = true ∧
    selectionWindow bsMetalFlat (some 2) = some (3, 7) := by
  refine ⟨by norm_num, rfl, ?_⟩
  rw [metal_cutoff_window bsMetalFlat 2 (by norm_num) rfl]
  norm_num [bsMetalFlat]

/-- Claim C4 counterexample: with `energy_cutoff = 0.0` (falsy in Python) and a
metallic input with Fermi level 5 and band energies `{0, 1}`, the code takes
the no-cutoff branch and the window is `(0, 1)`, not `(5 - 0, 5 + 0)`. -/
theorem zero_cutoff_ignored :
    selectionWindow bsMetalFlat (some 0) = some (0, 1) ∧
    selectionWindow bsMetalFlat (some 0) ≠
      some (bsMetalFlat.efermi - 0, bsMetalFlat.efermi + 0) := by
  constructor
  · decide
  · have h : selectionWindow bsMetalFlat (some 0) = some (0, 1) := by decide
    rw [h]
    norm_num [bsMetalFlat]

/-- Claim C5: for every metallic input, the returned Fermi energy equals the
input Fermi energy exactly and the recentering warning is not emitted. -/
theorem metal_fermi_preserved (ext : Externals) (bs : BandStructureIn)
    (cutoff : Option Rat) (r : InterpResult) (hmet : bs.isMetal = true)
    (hr : interpolate_bands ext bs cutoff = some r) :
    r.efermi = bs.efermi ∧ r.warned = false := by
  obtain ⟨mesh, lo, hi, efw, hm, hw, hf, hrr⟩ := interpolate_bands_some hr
  have hefw : efw = (bs.efermi, false) := by
    unfold fermiResult at hf
    rw [hmet] at hf
    simp only [if_true] at hf
    exact (Option.some_injective _ hf).symm
  subst hrr
  rw [buildResult_efermi, buildResult_warned, hefw]
  exact ⟨rfl, rfl⟩

/-- Claim C5 witness: a concrete metallic interpolation run that returns a
result with the original Fermi level 7 and no warning. -/
theorem metal_fermi_preserved_witness :
    bsMetalW.isMetal = true ∧
    interpolate_bands extTriv bsMetalW none =
      some (buildResult extTriv bsMetalW 0 2 (3, 1, 1) (7, false)) ∧
    (buildResult extTriv bsMetalW 0 2 (3, 1, 1) (7, false)).efermi = bsMetalW.efermi ∧
    (buildResult extTriv bsMetalW 0 2 (3, 1, 1) (7, false)).warned = false := by
  have hr : interpolate_bands extTriv bsMetalW none =
      some (buildResult extTriv bsMetalW 0 2 (3, 1, 1) (7, false)) :=
    ib_eq_some extTriv bsMetalW none (3, 1, 1) 0 2 (7, false)
      (by decide) (by decide) (by decide)
  have h := metal_fermi_preserved extTriv bsMetalW none
    (buildResult extTriv bsMetalW 0 2 (3, 1, 1) (7, false)) rfl hr
  exact ⟨rfl, hr, h.1, h.2⟩

/-- Claim C6: for every spin channel, the new valence-band index computed after
band selection equals the number of selected bands whose original band index is
at or below the spin's original valence-band-maximum index, minus one. -/
theorem new_vb_idx_spec (bs : BandStructureIn) (lo hi : Rat) (s : Spin)
    (rows : List (List Rat)) :
    newVbIdx bs lo hi s rows =
      ((enumFromL 0 (bandMask lo hi rows)).countP
        (fun p => decide (p.1 ≤ bs.vbmBandIndex s) && p.2) : Int) - 1 := by
  unfold newVbIdx
  rw [take_count_enum (bandMask lo hi rows) 0 (bs.vbmBandIndex s)]
  rw [Nat.zero_add]

/-- Claim C9: the spin keys of the returned band structure's energies, of the
coefficients dictionary, and of the per-spin interpolated-energies dictionary
all coincide with the input band structure's spin keys. -/
theorem spin_keys_preserved (ext : Externals) (bs : BandStructureIn)
    (cutoff : Option Rat) (r : InterpResult)
    (hr : interpolate_bands ext bs cutoff = some r) :
    r.energies.map Prod.fst = bs.bands.map Prod.fst ∧
    (coefficientsDict ext bs).map Prod.fst = bs.bands.map Prod.fst ∧
    ∀ lo2 hi2 : Rat,
      (rawEnergiesDict ext bs lo2 hi2).map Prod.fst = bs.bands.map Prod.fst := by
  obtain ⟨mesh, lo, hi, efw, hm, hw, hf, hrr⟩ := interpolate_bands_some hr
  subst hrr
  refine ⟨?_, ?_, ?_⟩
  · rw [buildResult_energies, List.map_map]
    unfold rawEnergiesDict
    rw [List.map_map]
    rfl
  · unfold coefficientsDict
    rw [List.map_map]
    rfl
  · intro lo2 hi2
    unfold rawEnergiesDict
    rw [List.map_map]
    rfl

/-- Claim C9 witness: a run with both spin channels present keeps both keys. -/
theorem spin_keys_preserved_witness :
    interpolate_bands extTriv bsTwoSpin none =
      some (buildResult extTriv bsTwoSpin 0 2 (3, 1, 1) (7, false)) ∧
    (buildResult extTriv bsTwoSpin 0 2 (3, 1, 1) (7, false)).energies.map Prod.fst =
      bsTwoSpin.bands.map Prod.fst := by
  have hr : interpolate_bands extTriv bsTwoSpin none =
      some (buildResult extTriv bsTwoSpin 0 2 (3, 1, 1) (7, false)) :=
    ib_eq_some extTriv bsTwoSpin none (3, 1, 1) 0 2 (7, false)
      (by decide) (by decide) (by decide)
  exact ⟨hr, (spin_keys_preserved extTriv bsTwoSpin none
    (buildResult extTriv bsTwoSpin 0 2 (3, 1, 1) (7, false)) hr).1⟩

/-- Claim C8: the k-point list of the returned band structure is sorted
ascending in plain lexicographic order by `(x, y, z)`, and applying the
lexicographic (stable) sort to it again yields the identity permutation. -/
theorem kpoints_lex_sorted (ext : Externals) (bs : BandStructureIn)
    (cutoff : Option Rat) (r : InterpResult)
    (hr : interpolate_bands ext bs cutoff = some r) :
    List.Sorted lexLe r.kpoints ∧
    argsort lexLe r.kpoints = List.range r.kpoints.length := by
  obtain ⟨mesh, lo, hi, efw, hm, hw, hf, hrr⟩ := interpolate_bands_some hr
  subst hrr
  rw [buildResult_kpoints]
  have hs := sorted_applyPerm_argsort lexLe
    (applyPerm (argsort signLe (fullKpoints ext.grid mesh)) (fullKpoints ext.grid mesh))
  exact ⟨hs, argsort_of_sorted lexLe hs⟩

/-- Claim C8 witness: a run over the three-point grid
`{(1,0,0),(0,0,0),(-1,0,0)}`; re-sorting the returned k-points is the
identity permutation. -/
theorem kpoints_lex_sorted_witness :
    interpolate_bands extSort bsMetalW none =
      some (buildResult extSort bsMetalW 0 2 (3, 1, 1) (7, false)) ∧
    argsort lexLe (buildResult extSort bsMetalW 0 2 (3, 1, 1) (7, false)).kpoints =
      List.range (buildResult extSort bsMetalW 0 2 (3, 1, 1) (7, false)).kpoints.length := by
  have hr : interpolate_bands extSort bsMetalW none =
      some (buildResult extSort bsMetalW 0 2 (3, 1, 1) (7, false)) :=
    ib_eq_some extSort bsMetalW none (3, 1, 1) 0 2 (7, false)
      (by decide) (by decide) (by decide)
  exact ⟨hr, (kpoints_lex_sorted extSort bsMetalW none
    (buildResult extSort bsMetalW 0 2 (3, 1, 1) (7, false)) hr).2⟩

/-- Claim C10: of the two sorting passes, the k-points receive the sign-first
permutation and then the lexicographic one, while each spin's energy rows
receive only the second (lexicographic) permutation, which is computed on the
sign-first-sorted k-points; the raw evaluated energies are never permuted by
the first pass. -/
theorem energies_second_sort_only (ext : Externals) (bs : BandStructureIn)
    (cutoff : Option Rat) (r : InterpResult) (mesh : Int × Int × Int) (lo hi : Rat)
    (hm : meshDims ext.equivalences = some mesh)
    (hw : selectionWindow bs cutoff = some (lo, hi))
    (hr : interpolate_bands ext bs cutoff = some r) :
    r.kpoints =
      applyPerm (argsort lexLe (applyPerm (argsort signLe (fullKpoints ext.grid mesh))
        (fullKpoints ext.grid mesh)))
        (applyPerm (argsort signLe (fullKpoints ext.grid mesh))
          (fullKpoints ext.grid mesh)) ∧
    r.energies =
      (rawEnergiesDict ext bs lo hi).map
        (fun p => (p.1, p.2.map (fun row => applyPerm
          (argsort lexLe (applyPerm (argsort signLe (fullKpoints ext.grid mesh))
            (fullKpoints ext.grid mesh))) row))) := by
  obtain ⟨mesh2, lo2, hi2, efw, hm2, hw2, hf, hrr⟩ := interpolate_bands_some hr
  rw [hm] at hm2
  rw [hw] at hw2
  have hmesh : mesh = mesh2 := Option.some_injective _ hm2
  have hlohi : (lo, hi) = (lo2, hi2) := Option.some_injective _ hw2
  obtain ⟨rfl, rfl⟩ := Prod.mk.injEq .. ▸ hlohi
  subst hmesh
  subst hrr
  exact ⟨buildResult_kpoints ext bs lo hi mesh efw,
    buildResult_energies ext bs lo hi mesh efw⟩

/-- Claim C10 witness: the concrete three-point-grid run; the returned energies
are the raw per-spin energies with only the lexicographic permutation applied
to their columns. -/
theorem energies_second_sort_only_witness :
    interpolate_bands extSort bsMetalW none =
      some (buildResult extSort bsMetalW 0 2 (3, 1, 1) (7, false)) ∧
    (buildResult extSort bsMetalW 0 2 (3, 1, 1) (7, false)).energies =
      (rawEnergiesDict extSort bsMetalW 0 2).map
        (fun p => (p.1, p.2.map (fun row => applyPerm
          (argsort lexLe (applyPerm (argsort signLe (fullKpoints extSort.grid (3, 1, 1)))
            (fullKpoints extSort.grid (3, 1, 1)))) row))) := by
  have hr : interpolate_bands extSort bsMetalW none =
      some (buildResult extSort bsMetalW 0 2 (3, 1, 1) (7, false)) :=
    ib_eq_some extSort bsMetalW none (3, 1, 1) 0 2 (7, false)
      (by decide) (by decide) (by decide)
  exact ⟨hr, (energies_second_sort_only extSort bsMetalW none
    (buildResult extSort bsMetalW 0 2 (3, 1, 1) (7, false)) (3, 1, 1) 0 2
    (by decide) (by decide) hr).2⟩

theorem foldMax_component_spec (f : β → Int) (v : β) (rest : List β) :
    (∀ w ∈ v :: rest, f w ≤ foldMax (f v) (rest.map f)) ∧
    (∃ w ∈ v :: rest, foldMax (f v) (rest.map f) = f w) := by
  constructor
  · intro w hw
    rcases List.mem_cons.mp hw with h | h
    · rw [h]
      exact le_foldMax (f v) (rest.map f)
    · exact le_foldMax_of_mem (f v) (List.mem_map_of_mem f h)
  · rcases foldMax_mem (f v) (rest.map f) with h | h
    · exact ⟨v, List.mem_cons_self v rest, h⟩
    · obtain ⟨w, hw, hfw⟩ := List.mem_map.mp h
      exact ⟨w, List.mem_cons.mpr (Or.inr hw), hfw.symm⟩

/-- Claim C7: each component of the returned mesh-dimension vector equals two
times the maximum over all equivalence vectors of that component's absolute
value, plus one. -/
theorem mesh_dims_formula (ext : Externals) (bs : BandStructureIn)
    (cutoff : Option Rat) (r : InterpResult)
    (hr : interpolate_bands ext bs cutoff = some r) :
    (∀ v ∈ ext.equivalences.flatten,
        2 * |v.1| + 1 ≤ r.meshDim.1 ∧ 2 * |v.2.1| + 1 ≤ r.meshDim.2.1 ∧
        2 * |v.2.2| + 1 ≤ r.meshDim.2.2) ∧
    (∃ v ∈ ext.equivalences.flatten, r.meshDim.1 = 2 * |v.1| + 1) ∧
    (∃ v ∈ ext.equivalences.flatten, r.meshDim.2.1 = 2 * |v.2.1| + 1) ∧
    (∃ v ∈ ext.equivalences.flatten, r.meshDim.2.2 = 2 * |v.2.2| + 1) := by
  obtain ⟨mesh, lo, hi, efw, hm, hw, hf, hrr⟩ := interpolate_bands_some hr
  subst hrr
  rw [buildResult_meshDim]
  unfold meshDims at hm
  cases hflat : ext.equivalences.flatten with
  | nil => rw [hflat] at hm; cases hm
  | cons v rest =>
    rw [hflat] at hm
    have hmesh : mesh = (2 * foldMax |v.1| (rest.map (fun w => |w.1|)) + 1,
        2 * foldMax |v.2.1| (rest.map (fun w => |w.2.1|)) + 1,
        2 * foldMax |v.2.2| (rest.map (fun w => |w.2.2|)) + 1) :=
      (Option.some_injective _ hm).symm
    subst hmesh
    obtain ⟨hb1, w1, hw1, he1⟩ := foldMax_component_spec (fun w => |w.1|) v rest
    obtain ⟨hb2, w2, hw2, he2⟩ := foldMax_component_spec (fun w => |w.2.1|) v rest
    obtain ⟨hb3, w3, hw3, he3⟩ := foldMax_component_spec (fun w => |w.2.2|) v rest
    refine ⟨?_, ⟨w1, hw1, ?_⟩, ⟨w2, hw2, ?_⟩, ⟨w3, hw3, ?_⟩⟩
    · intro w hwmem
      have h1 := hb1 w hwmem
      have h2 := hb2 w hwmem
      have h3 := hb3 w hwmem
      refine ⟨?_, ?_, ?_⟩
      · show 2 * |w.1| + 1 ≤ 2 * foldMax |v.1| (rest.map (fun w => |w.1|)) + 1
        omega
      · show 2 * |w.2.1| + 1 ≤ 2 * foldMax |v.2.1| (rest.map (fun w => |w.2.1|)) + 1
        omega
      · show 2 * |w.2.2| + 1 ≤ 2 * foldMax |v.2.2| (rest.map (fun w => |w.2.2|)) + 1
        omega
    · show 2 * foldMax |v.1| (rest.map (fun w => |w.1|)) + 1 = 2 * |w1.1| + 1
      rw [he1]
    · show 2 * foldMax |v.2.1| (rest.map (fun w => |w.2.1|)) + 1 = 2 * |w2.2.1| + 1
      rw [he2]
    · show 2 * foldMax |v.2.2| (rest.map (fun w => |w.2.2|)) + 1 = 2 * |w3.2.2| + 1
      rw [he3]

/-- Claim C7 witness: the single equivalence vector `(3, -2, 1)` yields mesh
dimensions `(7, 5, 3)`. -/
theorem mesh_dims_formula_witness :
    interpolate_bands ext731 bsMetalW none =
      some (buildResult ext731 bsMetalW 0 2 (7, 5, 3) (7, false)) ∧
    (buildResult ext731 bsMetalW 0 2 (7, 5, 3) (7, false)).meshDim = (7, 5, 3) ∧
    (∃ v ∈ ext731.equivalences.flatten,
      (buildResult ext731 bsMetalW 0 2 (7, 5, 3) (7, false)).meshDim.1 = 2 * |v.1| + 1) := by
  have hr : interpolate_bands ext731 bsMetalW none =
      some (buildResult ext731 bsMetalW 0 2 (7, 5, 3) (7, false)) :=
    ib_eq_some ext731 bsMetalW none (7, 5, 3) 0 2 (7, false)
      (by decide) (by decide) (by decide)
  exact ⟨hr, rfl, (mesh_dims_formula ext731 bsMetalW none
    (buildResult ext731 bsMetalW 0 2 (7, 5, 3) (7, false)) hr).2.1⟩

/-- Claim C3 (amended): with `energy_cutoff = None` the selection window is
the closed interval from the global minimum to the global maximum band energy
over all spins, and a band passes the selection mask iff at least one of its
k-point energies lies strictly inside that open window; in particular a band
whose energies only attain the extremes is excluded. -/
theorem window_no_cutoff (bs : BandStructureIn) (lo hi : Rat)
    (hw : selectionWindow bs none = some (lo, hi)) :
    (lo ∈ allEnergies bs ∧ hi ∈ allEnergies bs ∧
      ∀ e ∈ allEnergies bs, lo ≤ e ∧ e ≤ hi) ∧
    (∀ rows : List (List Rat), ∀ i : Nat, i < rows.length →
      ((bandMask lo hi rows).getD i false = true ↔
        ∃ e ∈ rows.getD i [], lo < e ∧ e < hi)) := by
  constructor
  · have hw2 : (match globalMinE bs, globalMaxE bs with
        | some lo2, some hi2 => some (lo2, hi2)
        | _, _ => none) = some (lo, hi) := by
      simpa [selectionWindow, truthy] using hw
    cases hmin : globalMinE bs with
    | none => rw [hmin] at hw2; simp at hw2
    | some lo2 =>
      cases hmax : globalMaxE bs with
      | none => rw [hmin, hmax] at hw2; simp at hw2
      | some hi2 =>
        rw [hmin, hmax] at hw2
        simp only [Option.some.injEq, Prod.mk.injEq] at hw2
        obtain ⟨hlo, hhi⟩ := hw2
        subst hlo
        subst hhi
        obtain ⟨hmem1, hbound1⟩ := globalMinE_spec hmin
        obtain ⟨hmem2, hbound2⟩ := globalMaxE_spec hmax
        exact ⟨hmem1, hmem2, fun e he => ⟨hbound1 e he, hbound2 e he⟩⟩
  · intro rows i hlen
    have hlen2 : i < (bandMask lo hi rows).length := by
      unfold bandMask
      rw [List.length_map]
      exact hlen
    rw [List.getD_eq_getElem _ _ hlen2, List.getD_eq_getElem _ _ hlen]
    unfold bandMask
    simp only [List.getElem_map, List.any_eq_true, Bool.and_eq_true, decide_eq_true_eq]

/-- Claim C3 witness: with bands `{[0, 5], [9, 9]}` the no-cutoff window is
`(0, 9)`, its lower end 0 is an actual band energy, and the first band passes
the mask precisely because it has the energy 5 strictly inside. -/
theorem window_no_cutoff_witness :
    selectionWindow bsW3 none = some (0, 9) ∧
    (0 : Rat) ∈ allEnergies bsW3 ∧
    ((bandMask 0 9 [[0, 5], [9, 9]]).getD 0 false = true ↔
      ∃ e ∈ ([[0, 5], [9, 9]] : List (List Rat)).getD 0 [], 0 < e ∧ e < 9) := by
  have hw : selectionWindow bsW3 none = some (0, 9) := by decide
  obtain ⟨h1, h2⟩ := window_no_cutoff bsW3 0 9 hw
  exact ⟨hw, h1.1, h2 [[0, 5], [9, 9]] 0 (by decide)⟩

/-- Claim C3 counterexample: with no cutoff and the two flat bands `{[0], [1]}`
the window is `(0, 1)` and the selection mask is `[false, false]`: both bands
are excluded, contradicting "no band of any spin is excluded". -/
theorem no_cutoff_excludes_band :
    selectionWindow bsFlatBands none = some (0, 1) ∧
    bandMask 0 1 [[0], [1]] = [false, false] :=
  ⟨by decide, by decide⟩

/-- Claim C2 (amended): for a non-metallic input with no energy cutoff, the
returned Fermi energy equals the arithmetic mean of the new VBM and the new
CBM of the interpolated energies, lies strictly between them whenever the new
VBM is strictly below the new CBM, and the recentering warning is emitted. -/
theorem nonmetal_fermi_midpoint (ext : Externals) (bs : BandStructureIn)
    (lo hi a b : Rat) (r : InterpResult) (hmet : bs.isMetal = false)
    (hw : selectionWindow bs none = some (lo, hi))
    (ha : eVbm ext bs lo hi = some a) (hb : eCbm ext bs lo hi = some b)
    (hr : interpolate_bands ext bs none = some r) :
    r.efermi = (a + b) / 2 ∧ (a < b → a < r.efermi ∧ r.efermi < b) ∧
    r.warned = true := by
  obtain ⟨mesh, lo2, hi2, efw, hm, hw2, hf, hrr⟩ := interpolate_bands_some hr
  rw [hw] at hw2
  have hlohi : (lo, hi) = (lo2, hi2) := Option.some_injective _ hw2
  obtain ⟨rfl, rfl⟩ := Prod.mk.injEq .. ▸ hlohi
  have hefw : efw = ((a + b) / 2, true) := by
    unfold fermiResult at hf
    rw [hmet] at hf
    simp only [Bool.false_eq_true, if_false, ha, hb] at hf
    exact (Option.some_injective _ hf).symm
  subst hrr
  rw [buildResult_efermi, buildResult_warned, hefw]
  refine ⟨rfl, ?_, rfl⟩
  intro hab
  constructor
  · show a < (a + b) / 2
    linarith
  · show (a + b) / 2 < b
    linarith

/-- Claim C2 witness: a non-metallic run where the new VBM is 0 and the new
CBM is 3: the returned Fermi energy is their mean, strictly between them, and
the warning is emitted. -/
theorem nonmetal_fermi_midpoint_witness :
    bsGapDeg.isMetal = false ∧
    interpolate_bands extTriv bsGapDeg none =
      some (buildResult extTriv bsGapDeg 0 4 (3, 1, 1) ((0 + 3) / 2, true)) ∧
    (buildResult extTriv bsGapDeg 0 4 (3, 1, 1) ((0 + 3) / 2, true)).efermi =
      (0 + 3) / 2 ∧
    (0 : Rat) < (buildResult extTriv bsGapDeg 0 4 (3, 1, 1) ((0 + 3) / 2, true)).efermi ∧
    (buildResult extTriv bsGapDeg 0 4 (3, 1, 1) ((0 + 3) / 2, true)).efermi < 3 ∧
    (buildResult extTriv bsGapDeg 0 4 (3, 1, 1) ((0 + 3) / 2, true)).warned = true := by
  have hw : selectionWindow bsGapDeg none = some (0, 4) := by decide
  have ha : eVbm extTriv bsGapDeg 0 4 = some 0 := by
    norm_num [eVbm, spinRawEnergies, maskSelect, bandMask, spinCoefficients, newVbIdx,
      optMap, listMax?, foldMax, unitseV, extTriv, bsGapDeg, List.filterMap, List.take,
      List.flatten, List.foldl, Option.bind, List.head?, Option.getD, List.zip,
      List.zipWith, List.map, List.any, List.tail, List.count, List.countP]
  have hb : eCbm extTriv bsGapDeg 0 4 = some 3 := by
    norm_num [eCbm, spinRawEnergies, maskSelect, bandMask, spinCoefficients, newVbIdx,
      optMap, listMin?, foldMin, unitseV, extTriv, bsGapDeg, List.filterMap, List.take,
      List.drop, List.flatten, List.foldl, Option.bind, List.head?, Option.getD,
      List.zip, List.zipWith, List.map, List.any, List.tail, List.count, List.countP]
  have hf : fermiResult extTriv bsGapDeg 0 4 = some ((0 + 3) / 2, true) := by
    have hmet : bsGapDeg.isMetal = false := rfl
    simp only [fermiResult, hmet, Bool.false_eq_true, if_false, ha, hb]
  have hr := ib_eq_some extTriv bsGapDeg none (3, 1, 1) 0 4 ((0 + 3) / 2, true)
    (by decide) hw hf
  have h := nonmetal_fermi_midpoint extTriv bsGapDeg 0 4 0 3
    (buildResult extTriv bsGapDeg 0 4 (3, 1, 1) ((0 + 3) / 2, true)) rfl hw ha hb hr
  obtain ⟨h1, h2, h3⟩ := h
  obtain ⟨h4, h5⟩ := h2 (by norm_num)
  exact ⟨rfl, hr, h1, h4, h5, h3⟩

/-- Claim C2 counterexample: an interface-conforming external evaluator that
returns the constant row `[1]` for every band makes the new VBM and the new
CBM both equal 1; the returned Fermi energy is then 1, which is not strictly
between them. -/
theorem fermi_not_strictly_between :
    selectionWindow bsGapDeg none = some (0, 4) ∧
    eVbm extDeg bsGapDeg 0 4 = some 1 ∧
    eCbm extDeg bsGapDeg 0 4 = some 1 ∧
    (interpolate_bands extDeg bsGapDeg none).map InterpResult.efermi = some 1 ∧
    ¬((1 : Rat) < 1) := by
  have hw : selectionWindow bsGapDeg none = some (0, 4) := by decide
  have ha : eVbm extDeg bsGapDeg 0 4 = some 1 := by
    norm_num [eVbm, spinRawEnergies, maskSelect, bandMask, spinCoefficients, newVbIdx,
      optMap, listMax?, foldMax, unitseV, extDeg, bsGapDeg, List.filterMap, List.take,
      List.flatten, List.foldl, Option.bind, List.head?, Option.getD, List.zip,
      List.zipWith, List.map, List.any, List.tail, List.count, List.countP]
  have hb : eCbm extDeg bsGapDeg 0 4 = some 1 := by
    norm_num [eCbm, spinRawEnergies, maskSelect, bandMask, spinCoefficients, newVbIdx,
      optMap, listMin?, foldMin, unitseV, extDeg, bsGapDeg, List.filterMap, List.take,
      List.drop, List.flatten, List.foldl, Option.bind, List.head?, Option.getD,
      List.zip, List.zipWith, List.map, List.any, List.tail, List.count, List.countP]
  have hf : fermiResult extDeg bsGapDeg 0 4 = some (1, true) := by
    have hmet : bsGapDeg.isMetal = false := rfl
    simp only [fermiResult, hmet, Bool.false_eq_true, if_false, ha, hb]
    norm_num
  have hr := ib_eq_some extDeg bsGapDeg none (3, 1, 1) 0 4 (1, true) (by decide) hw hf
  refine ⟨hw, ha, hb, ?_, by norm_num⟩
  rw [hr]
  rfl

/-- Claim C1: the code contains no `NoBandsInWindowError` guard.  With
`energy_cutoff = 1` and every band energy outside the window `(9, 11)`: a
metallic input returns a band structure whose spin-up energies array is empty
(a malformed zero-band result) instead of raising, and a non-metallic input
propagates the numeric error of `np.max` over an empty slice (modelled as
`none`). -/
theorem no_bands_in_window_behavior :
    (interpolate_bands extTriv bsNoBandsMetal (some 1)).map InterpResult.energies =
      some [(Spin.up, [])] ∧
    interpolate_bands extTriv bsNoBandsSemi (some 1) = none := by
  constructor
  · have hw : selectionWindow bsNoBandsMetal (some 1) = some (9, 11) := by
      norm_num [selectionWindow, truthy, bsNoBandsMetal]
    have hf : fermiResult extTriv bsNoBandsMetal 9 11 = some (10, false) := by decide
    have hr := ib_eq_some extTriv bsNoBandsMetal (some 1) (3, 1, 1) 9 11 (10, false)
      (by decide) hw hf
    rw [hr]
    have he : (buildResult extTriv bsNoBandsMetal 9 11 (3, 1, 1) (10, false)).energies
        = [(Spin.up, [])] := by
      rw [buildResult_energies]
      norm_num [rawEnergiesDict, spinRawEnergies, maskSelect, bandMask, spinCoefficients,
        bsNoBandsMetal, extTriv, List.filterMap, List.zip, List.zipWith, List.map,
        List.any, applyPerm]
    rw [Option.map_some', he]
  · have hw : selectionWindow bsNoBandsSemi (some 1) = some (9, 11) := by
      norm_num [selectionWindow, truthy, bsNoBandsSemi]
    have hf : fermiResult extTriv bsNoBandsSemi 9 11 = none := by
      norm_num [fermiResult, eVbm, eCbm, bsNoBandsSemi, extTriv, spinRawEnergies,
        maskSelect, bandMask, spinCoefficients, newVbIdx, optMap, listMax?, listMin?,
        List.filterMap, List.zip, List.zipWith, List.map, List.any, List.take,
        List.drop, List.flatten, List.count, List.countP]
    exact ib_eq_none extTriv bsNoBandsSemi (some 1) (3, 1, 1) 9 11 (by decide) hw hf
